import Mathlib

/-!
Verification development for the client-onboarding strategy pipeline.

This file gives a shallow embedding, in Lean 4, of the content-normalization
pipeline implemented in `src/app/api/generate-strategy/route.ts` (the live
Next.js route) and of the alternate, simpler handler found in the repository
(embedded here under the namespace `AltRoute`).  External effects (HTTP
fetches, the Fathom API, Whisper transcription, pdf-parse, the completion
model, `JSON.parse`) are modelled as explicit inputs collected in a `World`
record; everything the route itself computes (URL rewriting, HTML stripping,
length capping, transcript search, placeholder construction, response
status codes) is translated directly from the TypeScript source.

Strings are modelled with Lean `String` (a list of characters); JavaScript
string lengths are in UTF-16 code units while Lean counts characters, a
difference that is immaterial for every property proved here.
-/

namespace Onboard

/-! ## Generic string utilities -/

/-- Substring occurrence test on character lists: scans every position and
checks whether the pattern is a prefix there.  This models the JavaScript
`String.prototype.includes` used throughout the route. -/
def hasSubAux : List Char → List Char → Bool
  | [], pat => pat.isEmpty
  | c :: t, pat => pat.isPrefixOf (c :: t) || hasSubAux t pat

/-- `strHas s pat` models the JavaScript expression `s.includes(pat)`. -/
def strHas (s pat : String) : Bool := hasSubAux s.data pat.data

/-- `strSlice s n` models the JavaScript expression `s.slice(0, n)`. -/
def strSlice (s : String) (n : Nat) : String := String.mk (s.data.take n)

/-- A character of the JavaScript regex class `[a-zA-Z0-9_-]`, used by all
the resource-identifier capture groups in the route. -/
def isIdChar (c : Char) : Bool := c.isAlpha || c.isDigit || c == '_' || c == '-'

/-- Scanner for a regex of the shape `lit([a-zA-Z0-9_-]+)`: find the first
position where the literal `lit` occurs followed by at least one identifier
character, and return the maximal identifier run after it.  This is how the
JavaScript regexes for Google Docs/Slides/Drive URLs behave under
`String.prototype.match`: the engine tries each start position from the left
and requires a non-empty capture. -/
def scanCapture (lit : List Char) : List Char → Option (List Char)
  | [] => none
  | c :: t =>
    if lit.isPrefixOf (c :: t) then
      let run := ((c :: t).drop lit.length).takeWhile isIdChar
      if run.isEmpty then scanCapture lit t else some run
    else scanCapture lit t

/-- One alternative of the Fathom share-URL regex: the given key (for
example `share/`) followed by a non-empty identifier run. -/
def altId (key : String) (rest : List Char) : Option (List Char) :=
  if key.data.isPrefixOf rest then
    let run := (rest.drop key.data.length).takeWhile isIdChar
    if run.isEmpty then none else some run
  else none

/-- Scanner for the regex `fathom\.video\/(?:share|call|recording)\/([a-zA-Z0-9_-]+)`
used by `fetchLinkContent` to extract a share identifier. -/
def scanFathomId : List Char → Option (List Char)
  | [] => none
  | c :: t =>
    match
      (if ("fathom.video/").data.isPrefixOf (c :: t) then
        let rest := (c :: t).drop ("fathom.video/").data.length
        match altId "share/" rest with
        | some r => some r
        | none =>
          match altId "call/" rest with
          | some r => some r
          | none => altId "recording/" rest
      else none) with
    | some r => some r
    | none => scanFathomId t

/-! ## URL Classifier: `convertToFetchableUrl` (live route) -/

/-- Translation of `convertToFetchableUrl` from the live route: rewrite
Google Docs, Google Slides and Google Drive URLs to export/download URLs,
tag Fathom URLs with a `FATHOM_URL:` marker, and return anything else
unchanged. -/
def convertToFetchableUrl (url : String) : String :=
  match scanCapture ("docs.google.com/document/d/").data url.data with
  | some id => "https://docs.google.com/document/d/" ++ String.mk id ++ "/export?format=txt"
  | none =>
    match scanCapture ("docs.google.com/presentation/d/").data url.data with
    | some id => "https://docs.google.com/presentation/d/" ++ String.mk id ++ "/export?format=txt"
    | none =>
      match scanCapture ("drive.google.com/file/d/").data url.data with
      | some id => "https://drive.google.com/uc?export=download&id=" ++ String.mk id
      | none =>
        if strHas url "fathom.video" then "FATHOM_URL:" ++ url
        else url

end Onboard

namespace AltRoute

/-- Translation of `convertToFetchableUrl` from the alternate handler
(`src/unnamed/part_000`): identical to the live route's version except that
it has no Fathom case. -/
def convertToFetchableUrl (url : String) : String :=
  match Onboard.scanCapture ("docs.google.com/document/d/").data url.data with
  | some id => "https://docs.google.com/document/d/" ++ String.mk id ++ "/export?format=txt"
  | none =>
    match Onboard.scanCapture ("docs.google.com/presentation/d/").data url.data with
    | some id => "https://docs.google.com/presentation/d/" ++ String.mk id ++ "/export?format=txt"
    | none =>
      match Onboard.scanCapture ("drive.google.com/file/d/").data url.data with
      | some id => "https://drive.google.com/uc?export=download&id=" ++ String.mk id
      | none => url

end AltRoute

namespace Onboard

/-! ## JSON values

`findTranscriptInObject`, `formatFathomTranscript` and the Fathom API
handling operate on untyped parsed-JSON data (`unknown` in the TypeScript
source).  We model such data with an inductive of JSON values.  JavaScript
`undefined` (an absent field) is represented by `Option` at use sites. -/

inductive JsonVal where
  | str (s : String)
  | num (n : Int)
  | boolean (b : Bool)
  | null
  | arr (elems : List JsonVal)
  | obj (fields : List (String × JsonVal))

/-- JavaScript truthiness of a JSON value (`if (x)`). -/
def jsTruthy : JsonVal → Bool
  | .str s => !(s == "")
  | .num n => !(n == 0)
  | .boolean b => b
  | .null => false
  | .arr _ => true
  | .obj _ => true

/-- Property access `v.k` on parsed JSON: defined only on objects.  `none`
models JavaScript `undefined` (also the result of `v?.k` when `v` is not an
object, and of `'k' in v` being false). -/
def getField : JsonVal → String → Option JsonVal
  | .obj fields, k => fields.lookup k
  | _, _ => none

/-- `'k' in v` for object-typed values; arrays carry only numeric keys, so
string-key membership on them is false, matching the source's use of
`'text' in obj[0]` and `'transcript' in obj`. -/
def hasFieldB (v : JsonVal) (k : String) : Bool := (getField v k).isSome

/-- `obj && typeof obj === 'object'`: true exactly for arrays and objects
(`null` has `typeof` `'object'` but is falsy). -/
def isObjLike : JsonVal → Bool
  | .arr _ => true
  | .obj _ => true
  | _ => false

/-- Template-literal coercion of a JSON value to a string, as in
`` `[${timestamp}] ${speaker}: ${text}` ``.  In practice these values are
strings; the other branches model JavaScript coercion approximately. -/
def jsToStr : JsonVal → String
  | .str s => s
  | .num n => toString n
  | .boolean b => cond b "true" "false"
  | .null => "null"
  | .arr _ => ""
  | .obj _ => "[object Object]"

/-- Serializer standing in for `JSON.stringify(data, null, 2)`, the
last-resort branch of `formatFathomTranscript`.  No property proved in this
file depends on its exact output (whitespace and escaping are not
reproduced). -/
def jsonStringify : JsonVal → String
  | .str s => "\"" ++ s ++ "\""
  | .num n => toString n
  | .boolean b => cond b "true" "false"
  | .null => "null"
  | .arr elems => "[" ++ String.intercalate "," (elems.attach.map (fun x => jsonStringify x.1)) ++ "]"
  | .obj fields =>
      "\x7b" ++
        String.intercalate ","
          (fields.attach.map (fun p => "\"" ++ p.1.1 ++ "\":" ++ jsonStringify p.1.2)) ++
      "\x7d"
decreasing_by
  · have := List.sizeOf_lt_of_mem x.2
    simp [JsonVal.arr.sizeOf_spec]
    omega
  · have h1 := List.sizeOf_lt_of_mem p.2
    have h2 : sizeOf p.1.2 < sizeOf p.1 := by
      obtain ⟨⟨a, b⟩, hp⟩ := p
      simp
    simp [JsonVal.obj.sizeOf_spec]
    omega

/-- One line of a transcript entry:
`` `[${timestamp}] ${speaker}: ${text}` `` with
`speaker = entry.speaker?.display_name || 'Speaker'`,
`text = entry.text || ''`, `timestamp = entry.timestamp || ''`. -/
def formatEntry (entry : JsonVal) : String :=
  let speaker :=
    match getField entry "speaker" with
    | some sp =>
      match getField sp "display_name" with
      | some dn => if jsTruthy dn then jsToStr dn else "Speaker"
      | none => "Speaker"
    | none => "Speaker"
  let text :=
    match getField entry "text" with
    | some t => if jsTruthy t then jsToStr t else ""
    | none => ""
  let timestamp :=
    match getField entry "timestamp" with
    | some ts => if jsTruthy ts then jsToStr ts else ""
    | none => ""
  "[" ++ timestamp ++ "] " ++ speaker ++ ": " ++ text

/-- Translation of `formatFathomTranscript`: a string passes through, an
array is rendered line by line, an object wrapping a `transcript` field is
unwrapped (string or array), and anything else is serialized. -/
def formatFathomTranscript (data : JsonVal) : String :=
  match data with
  | .str s => s
  | .arr entries => String.intercalate "\n" (entries.map formatEntry)
  | _ =>
    match getField data "transcript" with
    | some (.str s) => s
    | some (.arr entries) => String.intercalate "\n" (entries.map formatEntry)
    | _ => jsonStringify data

/-- The array shape test of `findTranscriptInObject`:
`obj.length > 0 && obj[0] && typeof obj[0] === 'object' && ('text' in obj[0] || 'speaker' in obj[0])`. -/
def isTranscriptShapedArr : List JsonVal → Bool
  | [] => false
  | x :: _ => isObjLike x && (hasFieldB x "text" || hasFieldB x "speaker")

/-- JavaScript truthiness filter applied to loop results:
`const result = findTranscriptInObject(...); if (result) return result;`
treats both `null` and the empty string as "keep looking". -/
def truthyFilter : Option String → Option String
  | some s => if s == "" then none else some s
  | none => none

/-- Fuel-indexed translation of `findTranscriptInObject`.  The source
guards with `if (depth > 10) return null` and recurses with `depth + 1`,
so the recursion is bounded by the depth budget alone; we make that bound
explicit by structural recursion on `fuel = 11 - depth`, independent of the
shape of the value (this is exactly why the traversal terminates even on
cyclic JavaScript objects).  Within one level the source checks, in order:
the long colon-bearing string heuristic, the transcript-shaped array test,
a loop over array elements, the `transcript` key (string over 100 chars, or
any array), and a loop over object values.  Note that an array falls
through to the object part as well (`typeof [] === 'object'`), harmlessly
re-scanning its elements. -/
def findT : Nat → JsonVal → Option String
  | 0, _ => none
  | fuel + 1, v =>
    let stringHit : Option String :=
      match v with
      | .str s => if 500 < s.length && s.data.contains ':' then some s else none
      | _ => none
    match stringHit with
    | some s => some s
    | none =>
      let arrHit : Option String :=
        match v with
        | .arr elems =>
          if isTranscriptShapedArr elems then some (formatFathomTranscript (.arr elems))
          else elems.findSome? (fun item => truthyFilter (findT fuel item))
        | _ => none
      match arrHit with
      | some s => some s
      | none =>
        if isObjLike v then
          let transcriptHit : Option String :=
            match getField v "transcript" with
            | some (.str s) => if 100 < s.length then some s else none
            | some (.arr entries) => some (formatFathomTranscript (.arr entries))
            | _ => none
          match transcriptHit with
          | some s => some s
          | none =>
            let values : List JsonVal :=
              match v with
              | .arr elems => elems
              | .obj fields => fields.map (fun p => p.2)
              | _ => []
            values.findSome? (fun value => truthyFilter (findT fuel value))
        else none

/-- Translation of `findTranscriptInObject(obj, depth)`.  The wrapper maps
the source's increasing `depth` (cut off above 10) onto the decreasing fuel
of `findT`: depth `d` has `11 - d` levels of budget left, and
`depth > 10` is exactly `11 - depth = 0`. -/
def findTranscriptInObject (v : JsonVal) (depth : Nat) : Option String :=
  findT (11 - depth) v

/-- Wraps a value `n` objects deep, to express that content buried beyond
the depth bound is never reached. -/
def nestUnder : Nat → JsonVal → JsonVal
  | 0, v => v
  | n + 1, v => .obj [("wrapped", nestUnder n v)]

/-! ## External world

All network and library effects the route performs are collected in a
`World` record supplied to the embedded functions: the outcome of each HTTP
fetch, the Fathom API responses, the features the share-page regexes would
extract from the fetched HTML, the Whisper transcription outcome, the
pdf-parse outcome, the completion-model response, and `JSON.parse`.
`Except String α` models a JavaScript computation that either returns or
throws an `Error` carrying a message. -/

structure HttpResp where
  ok : Bool
  status : Nat
  contentType : String
  body : String

/-- Features the Fathom share-page scraping step extracts from the fetched
HTML.  The three regex probes of `fetchLinkContent` (`call[_-]?id...`,
`transcript...[...]`, `window.__NEXT_DATA__`) act on external page text, so
their results are part of the environment: `none` models "no regex match or
`JSON.parse` failed", matching how the source falls through to the next
probe in both cases. -/
structure PageInfo where
  ok : Bool
  callId : Option String
  embedded : Option JsonVal
  nextData : Option JsonVal

structure FathomApi where
  apiKey : Option String
  endpointJson : String → Option JsonVal
  listJson : Option JsonVal

structure ContentBlock where
  type : String
  text : String

structure World where
  http : String → Option HttpResp
  page : String → PageInfo
  api : FathomApi
  whisper : Except String String
  pdfText : Except String String
  completion : String → Except String (List ContentBlock)
  parseJson : String → Option JsonVal

/-! ## Meeting-Recording Retriever: `fetchFathomTranscript` -/

/-- The four endpoint shapes tried, in order, by `fetchFathomTranscript`. -/
def fathomEndpoints (shareId : String) : List String :=
  [ "https://api.fathom.ai/external/v1/share/" ++ shareId ++ "/transcript",
    "https://api.fathom.ai/external/v1/calls/" ++ shareId ++ "/transcript",
    "https://api.fathom.ai/external/v1/recordings/" ++ shareId ++ "/transcript",
    "https://api.fathom.ai/external/v1/calls/" ++ shareId ]

/-- The final error thrown when every retrieval step is exhausted. -/
def fathomExhaustedMsg (shareId : String) : String :=
  "Could not fetch transcript for share ID: " ++ shareId ++
    ". The share link ID may not be accessible via API. Try using the call ID from your Fathom dashboard or paste the transcript directly."

/-- One iteration of the list-recent-calls fallback: a call matches when
`call.share_url?.includes(shareId) || call.id === shareId`, and is used only
when `call.transcript` is truthy; otherwise the loop continues. -/
def fathomCallHit (shareId : String) (call : JsonVal) : Option String :=
  let matchesId :=
    (match getField call "share_url" with
     | some (.str u) => strHas u shareId
     | _ => false) ||
    (match getField call "id" with
     | some (.str i) => i == shareId
     | _ => false)
  if matchesId then
    match getField call "transcript" with
    | some t => if jsTruthy t then some (formatFathomTranscript t) else none
    | none => none
  else none

/-- Translation of `fetchFathomTranscript`: require the API key from
configuration, try the four endpoint shapes in order (a non-ok response or
a thrown fetch means "try the next one"; on success use `data.transcript`
when truthy, else the whole body), then fall back to listing recent calls
and scanning for a matching one, and finally throw a descriptive error. -/
def fetchFathomTranscript (api : FathomApi) (shareId : String) : Except String String :=
  match api.apiKey with
  | none => .error "Fathom API key not configured. Add FATHOM_API_KEY to your environment variables."
  | some _ =>
    let fromEndpoints : Option String :=
      (fathomEndpoints shareId).findSome? (fun endpoint =>
        match api.endpointJson endpoint with
        | some data =>
          some (match getField data "transcript" with
                | some t =>
                  if jsTruthy t then formatFathomTranscript t
                  else formatFathomTranscript data
                | none => formatFathomTranscript data)
        | none => none)
    match fromEndpoints with
    | some s => .ok s
    | none =>
      let fromList : Option String :=
        match api.listJson with
        | some (.arr calls) => calls.findSome? (fathomCallHit shareId)
        | _ => none
      match fromList with
      | some s => .ok s
      | none => .error (fathomExhaustedMsg shareId)

/-! ## Generic Content Fetcher and Fathom branch: `fetchLinkContent` -/

/-- Case-insensitive character comparison, for the `/gi` regex flags. -/
def lowerEq (a b : Char) : Bool := a.toLower == b.toLower

/-- Case-insensitive prefix test of a pattern against a character list. -/
def ciPrefix : List Char → List Char → Bool
  | [], _ => true
  | _ :: _, [] => false
  | p :: ps, c :: cs => lowerEq p c && ciPrefix ps cs

/-- Consume `[^>]*>` after an opening tag name: skip to just past the next
`>`, failing if none exists. -/
def afterOpenTag : List Char → Option (List Char)
  | [] => none
  | '>' :: r => some r
  | _ :: t => afterOpenTag t

/-- Find the closing pattern (for example `</script>`), case-insensitively,
and return the rest after it; models the lazy `[\s\S]*?` of the block
regexes. -/
def afterClose (closePat : List Char) : List Char → Option (List Char)
  | [] => none
  | c :: t =>
    if ciPrefix closePat (c :: t) then some ((c :: t).drop closePat.length)
    else afterClose closePat t

theorem afterOpenTag_length : ∀ s r, afterOpenTag s = some r → r.length < s.length := by
  intro s
  induction s with
  | nil => intro r h; simp [afterOpenTag] at h
  | cons c t ih =>
    intro r h
    match c, h with
    | '>', h => simp [afterOpenTag] at h; subst h; simp
    | c, h =>
      rw [afterOpenTag.eq_def] at h
      split at h
      · exact absurd h (by simp)
      · rename_i heq; cases heq
        simp at h; subst h; simp
      · rename_i c' t' heq
        cases heq
        exact Nat.lt_trans (ih r h) (by simp)

theorem afterClose_length (closePat : List Char) (hc : closePat ≠ []) :
    ∀ s r, afterClose closePat s = some r → r.length < s.length := by
  intro s
  induction s with
  | nil => intro r h; simp [afterClose] at h
  | cons c t ih =>
    intro r h
    simp only [afterClose] at h
    split at h
    · have hr : r = (c :: t).drop closePat.length := by
        exact (Option.some.injEq _ _ ▸ h).symm
      subst hr
      have hpos : 0 < closePat.length := List.length_pos.mpr hc
      simp [List.length_drop]
      omega
    · exact Nat.lt_trans (ih r h) (by simp)

/-- Remove every (case-insensitive) `openPat[^>]*> ... closePat` block,
as in `.replace(/<script[^>]*>[\s\S]*?<\/script>/gi, "")`; a position where
the block does not complete leaves the character in place and resumes one
character later, as the regex engine does. -/
def removeBlocks (openPat closePat : List Char) (ho : openPat ≠ []) (hc : closePat ≠ []) :
    List Char → List Char
  | [] => []
  | c :: t =>
    if ciPrefix openPat (c :: t) then
      match hAfterOpen : afterOpenTag ((c :: t).drop openPat.length) with
      | some afterOpen =>
        match hAfterClose : afterClose closePat afterOpen with
        | some rest => removeBlocks openPat closePat ho hc rest
        | none => c :: removeBlocks openPat closePat ho hc t
      | none => c :: removeBlocks openPat closePat ho hc t
    else c :: removeBlocks openPat closePat ho hc t
termination_by s => s.length
decreasing_by
  · have h1 := afterOpenTag_length _ _ hAfterOpen
    have h2 := afterClose_length closePat hc _ _ hAfterClose
    have h3 : ((c :: t).drop openPat.length).length ≤ (c :: t).length := by
      simp [List.length_drop]
    simp only [List.length_cons] at *
    omega
  · simp
  · simp
  · simp

/-- Replace each tag `<[^>]+>` with a single space, as in
`.replace(/<[^>]+>/g, " ")`.  `<>` has an empty inside and does not match;
an unterminated `<` matches nothing and stays. -/
def stripTags : List Char → List Char
  | [] => []
  | c :: t =>
    if c == '<' then
      match hInner : (match t with
                      | [] => none
                      | '>' :: _ => (none : Option (List Char))
                      | _ :: t' => afterOpenTag t') with
      | some rest => ' ' :: stripTags rest
      | none => c :: stripTags t
    else c :: stripTags t
termination_by s => s.length
decreasing_by
  · have : rest.length < t.length := by
      rcases t with _ | ⟨c', t'⟩
      · simp at hInner
      · split at hInner
        · exact absurd hInner (by simp)
        · exact absurd hInner (by simp)
        · rename_i heq
          cases heq
          exact Nat.lt_trans (afterOpenTag_length _ _ hInner) (by simp)
    simp
    omega
  · simp
  · simp

/-- Collapse each whitespace run to a single space, as in
`.replace(/\s+/g, " ")` (ASCII whitespace; the `\s` class also covers
Unicode spaces, which do not occur in these proofs). -/
def collapseWs : Bool → List Char → List Char
  | _, [] => []
  | prevWs, c :: t =>
    if c.isWhitespace then
      if prevWs then collapseWs true t else ' ' :: collapseWs true t
    else c :: collapseWs false t

/-- `.trim()`: drop whitespace from both ends. -/
def jsTrim (s : String) : String :=
  String.mk (((s.data.dropWhile Char.isWhitespace).reverse.dropWhile Char.isWhitespace).reverse)

/-- The HTML-to-text pipeline shared by `fetchLinkContent` (cap 20000) and
the website fetch in `POST` (cap 10000): strip `<script>` and `<style>`
blocks, strip remaining tags, collapse whitespace, trim, and cap. -/
def stripHtmlPipeline (html : String) (cap : Nat) : String :=
  let noScript := removeBlocks ("<script").data ("</script>").data (by simp) (by simp) html.data
  let noStyle := removeBlocks ("<style").data ("</style>").data (by simp) (by simp) noScript
  let noTags := stripTags noStyle
  let collapsed := collapseWs false noTags
  strSlice (jsTrim (String.mk collapsed)) cap

/-- The inline placeholder the Fathom branch's `catch` produces from any
error thrown during transcript recovery. -/
def fathomFailurePlaceholder (msg : String) : String :=
  "[Could not fetch Fathom transcript. Error: " ++ msg ++
    ". Please copy the transcript from Fathom and paste it directly.]"

/-- Body of the `try` block of the Fathom special handling in
`fetchLinkContent`: fetch the share page; if it loads, try in order a
page-embedded call id (retrying the API with it), an embedded transcript
array, and a recursive search of the `__NEXT_DATA__` blob (used only when
truthy); otherwise fall back to the share-id regex on the URL and the API,
and finally throw. -/
def fathomFetch (w : World) (fathomUrl : String) : Except String String :=
  let info := w.page fathomUrl
  let scraped : Option (Except String String) :=
    if info.ok then
      match info.callId with
      | some cid => some (fetchFathomTranscript w.api cid)
      | none =>
        match info.embedded with
        | some t => some (.ok (formatFathomTranscript t))
        | none =>
          match info.nextData with
          | some nd =>
            match findTranscriptInObject nd 0 with
            | some t => if t == "" then none else some (.ok t)
            | none => none
          | none => none
    else none
  match scraped with
  | some r => r
  | none =>
    match scanFathomId fathomUrl.data with
    | some id => fetchFathomTranscript w.api (String.mk id)
    | none => .error "Could not extract transcript from Fathom share page"

/-- The Fathom special handling with its `catch`: every thrown error is
recovered as an inline placeholder string, so this branch always returns. -/
def fathomBranch (w : World) (fathomUrl : String) : String :=
  match fathomFetch w fathomUrl with
  | .ok s => s
  | .error msg => fathomFailurePlaceholder msg

/-- Translation of `fetchLinkContent`: classify the URL; Fathom URLs go to
the recovering Fathom branch (never throwing); anything else is fetched,
with a Google-specific permissions hint on a non-ok status, and the body is
returned capped at 20000 characters (plain text as-is, HTML stripped).
A thrown network fetch is modelled by `w.http _ = none` and propagates as
an error to the caller, as the unguarded `await fetch` does. -/
def fetchLinkContent (w : World) (url : String) : Except String String :=
  let fetchUrl := convertToFetchableUrl url
  if ("FATHOM_URL:").data.isPrefixOf fetchUrl.data then
    -- `fetchUrl.replace("FATHOM_URL:", "")` removes the first occurrence,
    -- which is the prepended tag, recovering the original URL.
    .ok (fathomBranch w (String.mk (fetchUrl.data.drop ("FATHOM_URL:").data.length)))
  else
    match w.http fetchUrl with
    | none => .error "fetch failed"
    | some resp =>
      if !resp.ok then
        if strHas url "google.com" then
          .error "Google link not accessible. Make sure sharing is set to \"Anyone with the link can view\""
        else
          .error ("Failed to fetch: " ++ toString resp.status)
      else
        if strHas resp.contentType "text/plain" then
          .ok (strSlice resp.body 20000)
        else
          .ok (stripHtmlPipeline resp.body 20000)

/-! ## Content Aggregator: the `POST` handler -/

structure UploadFile where
  name : String

/-- The multipart form fields read by `POST`.  `formData.get` yields
`null` for an absent text field, modelled by `Option String`; the first
four fields are cast `as string` by the source and modelled as plain
strings (an absent optional field arrives as the falsy empty string for
the purposes of the truthiness tests below). -/
structure SubmissionForm where
  clientName : String
  industry : String
  websiteUrl : String
  socialProfile : String
  meetingRecordingType : Option String
  meetingRecordingContent : Option String
  meetingRecordingFile : Option UploadFile
  auditDeckFile : Option UploadFile
  auditLink : Option String

/-- `s.endsWith(pat)`, modelled on the underlying character lists. -/
def strEndsWith (s pat : String) : Bool := pat.data.isSuffixOf s.data

/-- JavaScript truthiness of a nullable string (`null` and `""` are falsy). -/
def jsOptTruthy : Option String → Bool
  | some s => !(s == "")
  | none => false

structure CollectedData where
  clientName : String
  industry : String
  websiteUrl : String
  socialProfile : String
  meetingTranscript : Option String
  auditDeckContent : Option String
  websiteContent : Option String
  socialContent : Option String

/-- The meeting-recording branch of `POST`: inline transcript verbatim, or
link fetch with an inline error placeholder, or Whisper transcription with
an inline error placeholder. -/
def resolveMeetingTranscript (w : World) (f : SubmissionForm) : Option String :=
  if f.meetingRecordingType == some "transcript" && jsOptTruthy f.meetingRecordingContent then
    f.meetingRecordingContent
  else if f.meetingRecordingType == some "link" && jsOptTruthy f.meetingRecordingContent then
    match f.meetingRecordingContent with
    | some link =>
      match fetchLinkContent w link with
      | .ok content => some content
      | .error _ => some ("[Could not fetch content from: " ++ link ++ "]")
    | none => none
  else if f.meetingRecordingType == some "file" && f.meetingRecordingFile.isSome then
    match w.whisper with
    | .ok transcription => some transcription
    | .error _ => some "[Error transcribing audio file]"
  else none

/-- The audit-deck branch of `POST`: a truthy link is tried first and its
failure becomes an inline placeholder; only when no link was provided is
the uploaded binary consulted (PDF text extraction, an opaque placeholder
for other types, an error placeholder when extraction throws). -/
def resolveAuditDeck (w : World) (f : SubmissionForm) : Option String :=
  if jsOptTruthy f.auditLink then
    match f.auditLink with
    | some link =>
      match fetchLinkContent w link with
      | .ok content => some content
      | .error _ => some ("[Could not fetch content from: " ++ link ++ "]")
    | none => none
  else
    match f.auditDeckFile with
    | some file =>
      if Onboard.strEndsWith file.name ".pdf" then
        match w.pdfText with
        | .ok text => some text
        | .error _ => some "[Error processing audit deck]"
      else some ("[File uploaded: " ++ file.name ++ "]")
    | none => none

/-- The website branch of `POST`: fetched without checking the status,
stripped and capped at 10000 characters; a thrown fetch becomes an inline
error placeholder. -/
def resolveWebsiteContent (w : World) (f : SubmissionForm) : Option String :=
  if f.websiteUrl == "" then none
  else some (match w.http f.websiteUrl with
             | none => "[Error fetching website content]"
             | some resp => stripHtmlPipeline resp.body 10000)

/-- The social branch of `POST`: only the literal URL is recorded. -/
def resolveSocialContent (f : SubmissionForm) : Option String :=
  if f.socialProfile == "" then none
  else some ("[Social profile URL provided: " ++ f.socialProfile ++ "]")

/-- The aggregation performed by `POST` before calling `generateStrategy`. -/
def buildCollectedData (w : World) (f : SubmissionForm) : CollectedData :=
  { clientName := f.clientName
    industry := f.industry
    websiteUrl := f.websiteUrl
    socialProfile := f.socialProfile
    meetingTranscript := resolveMeetingTranscript w f
    auditDeckContent := resolveAuditDeck w f
    websiteContent := resolveWebsiteContent w f
    socialContent := resolveSocialContent f }

/-! ## Strategy Generator: `generateStrategy` -/

/-- `${x || "fallback"}` for a nullable record field in the prompt
template. -/
def renderOr (v : Option String) (fallback : String) : String :=
  match v with
  | some s => if s == "" then fallback else s
  | none => fallback

def promptP1 : String :=
  "You are a senior marketing strategist. Based on the following client information, create a comprehensive marketing strategy.\n\n## Client Information\n- **Client Name:** "

def promptP2 : String := "\n- **Industry:** "

def promptP3 : String := "\n\n## Meeting Notes/Transcript\n"

def promptP4 : String := "\n\n## Audit Deck Content\n"

def promptP5 : String := "\n\n## Website Content\n"

def promptP6 : String := "\n\n## Social Media Presence\n"

def promptP7 : String :=
  "\n\n---\n\nBased on all the above information, create a detailed marketing strategy. You must respond with ONLY a valid JSON object (no markdown, no code blocks, just raw JSON) in the following format:\n\n\x7b\n  \"executiveSummary\": \"A 2-3 paragraph executive summary of the recommended marketing strategy\",\n  \"targetAudience\": \"Detailed description of the ideal target audience based on the information provided\",\n  \"keyInsights\": [\"insight 1\", \"insight 2\", \"insight 3\", \"insight 4\", \"insight 5\"],\n  \"contentStrategy\": \x7b\n    \"pillars\": [\"pillar 1\", \"pillar 2\", \"pillar 3\"],\n    \"themes\": [\"theme 1\", \"theme 2\", \"theme 3\", \"theme 4\"],\n    \"formats\": [\"format 1\", \"format 2\", \"format 3\", \"format 4\"]\n  \x7d,\n  \"channelStrategy\": \x7b\n    \"primary\": [\"channel 1\", \"channel 2\"],\n    \"secondary\": [\"channel 3\", \"channel 4\"]\n  \x7d,\n  \"messagingFramework\": \x7b\n    \"valueProposition\": \"Clear value proposition statement\",\n    \"keyMessages\": [\"message 1\", \"message 2\", \"message 3\"],\n    \"toneOfVoice\": \"Description of recommended tone of voice\"\n  \x7d,\n  \"quickWins\": [\"quick win 1\", \"quick win 2\", \"quick win 3\"],\n  \"longTermInitiatives\": [\"initiative 1\", \"initiative 2\", \"initiative 3\"],\n  \"kpis\": [\"KPI 1\", \"KPI 2\", \"KPI 3\", \"KPI 4\", \"KPI 5\"]\n\x7d\n\nMake the strategy specific, actionable, and tailored to the client\x27s industry and the information provided. If certain information is missing, make reasonable assumptions based on the industry."

/-- The fixed prompt template of `generateStrategy`, embedding the client
name, industry, and the four content fields (each with its `||` fallback
text) between the literal template segments. -/
def buildPrompt (d : CollectedData) : String :=
  promptP1 ++ d.clientName ++ promptP2 ++ d.industry ++
  promptP3 ++ renderOr d.meetingTranscript "No meeting transcript provided" ++
  promptP4 ++ renderOr d.auditDeckContent "No audit deck provided" ++
  promptP5 ++ renderOr d.websiteContent "No website content available" ++
  promptP6 ++ renderOr d.socialContent "No social profile information available" ++
  promptP7

/-- Translation of `generateStrategy`: submit the rendered prompt to the
completion model (a thrown call propagates); find the first text-typed
content block, failing with "No text response from Claude" when there is
none; parse its text as JSON, failing with "Invalid strategy format from
AI" when parsing throws.  The parsed strategy is returned as untyped JSON,
as `JSON.parse` produces. -/
def generateStrategy (w : World) (d : CollectedData) : Except String JsonVal :=
  match w.completion (buildPrompt d) with
  | .error e => .error e
  | .ok blocks =>
    match blocks.find? (fun b => b.type == "text") with
    | none => .error "No text response from Claude"
    | some block =>
      match w.parseJson block.text with
      | some strategy => .ok strategy
      | none => .error "Invalid strategy format from AI"

/-! ## Inbound HTTP endpoint: `POST` -/

structure ApiResponse where
  status : Nat
  strategy : Option JsonVal
  error : Option String

/-- Translation of the `POST` handler's overall control flow: aggregate the
form into a `CollectedData`, generate the strategy, and answer 200 with
`{ strategy }`; the surrounding `catch` answers every thrown error with
status 500 and the fixed body `{ error: "Failed to generate strategy" }`. -/
def POST (w : World) (f : SubmissionForm) : ApiResponse :=
  match generateStrategy w (buildCollectedData w f) with
  | .ok strategy => { status := 200, strategy := some strategy, error := none }
  | .error _ => { status := 500, strategy := none, error := some "Failed to generate strategy" }

/-- The spec classifies an upstream failure as authentication-class when
its message matches known patterns.  Modelled from the spec:
"classified as authentication-class when the message matches known
patterns (mentions of API key, authentication, unauthorized, 401)". -/
def specIsAuthErrorMsg (msg : String) : Bool :=
  strHas msg "API key" || strHas msg "authentication" || strHas msg "Unauthorized" || strHas msg "401"

/-- Modelled from the spec: the truncation rule the specification ascribes
to the Strategy Generator — "Truncates each free-text field to its
field-specific budget with a visible \"...[truncated]\" marker when cut."
The live code contains no such function; this definition exists to be
compared against the code's behaviour. -/
def specTruncate (cap : Nat) (s : String) : String :=
  if cap < s.length then strSlice s cap ++ "...[truncated]" else s

end Onboard

namespace AltRoute

/-- Translation of `fetchLinkContent` from the alternate handler: as the
live route's, but with no Fathom branch. -/
def fetchLinkContent (w : Onboard.World) (url : String) : Except String String :=
  let fetchUrl := AltRoute.convertToFetchableUrl url
  match w.http fetchUrl with
  | none => .error "fetch failed"
  | some resp =>
    if !resp.ok then
      if Onboard.strHas url "google.com" then
        .error "Google link not accessible. Make sure sharing is set to \"Anyone with the link can view\""
      else
        .error ("Failed to fetch: " ++ toString resp.status)
    else
      if Onboard.strHas resp.contentType "text/plain" then
        .ok (Onboard.strSlice resp.body 20000)
      else
        .ok (Onboard.stripHtmlPipeline resp.body 20000)

/-- The audit-link failure placeholder of the alternate handler, which —
unlike the live route's — repeats the sharing hint. -/
def auditLinkPlaceholder (link : String) : String :=
  "[Could not fetch content from: " ++ link ++
    ". Make sure sharing is set to \"Anyone with the link can view\"]"

/-- The audit-deck branch of the alternate handler's `POST`: same
link-over-binary priority as the live route, but the link-failure
placeholder carries the sharing hint. -/
def resolveAuditDeck (w : Onboard.World) (f : Onboard.SubmissionForm) : Option String :=
  if Onboard.jsOptTruthy f.auditLink then
    match f.auditLink with
    | some link =>
      match AltRoute.fetchLinkContent w link with
      | .ok content => some content
      | .error _ => some (auditLinkPlaceholder link)
    | none => none
  else
    match f.auditDeckFile with
    | some file =>
      if Onboard.strEndsWith file.name ".pdf" then
        match w.pdfText with
        | .ok text => some text
        | .error _ => some "[Error processing audit deck]"
      else some ("[File uploaded: " ++ file.name ++ "]")
    | none => none

end AltRoute

namespace Onboard

/-! ## Concrete environments and inputs used by witnesses and
counterexamples -/

def wC7 : World :=
  { http := fun _ => none
    page := fun _ => { ok := false, callId := none, embedded := none, nextData := none }
    api := { apiKey := some "key", endpointJson := fun _ => none, listJson := none }
    whisper := .error "w"
    pdfText := .error "p"
    completion := fun _ => .error "c"
    parseJson := fun _ => none }

def wC9 : World :=
  { http := fun _ => some { ok := true, status := 200, contentType := "text/plain", body := "deck body" }
    page := fun _ => { ok := false, callId := none, embedded := none, nextData := none }
    api := { apiKey := none, endpointJson := fun _ => none, listJson := none }
    whisper := .error "w"
    pdfText := .ok "PDF TEXT FROM BINARY"
    completion := fun _ => .error "c"
    parseJson := fun _ => none }

def fC9 : SubmissionForm :=
  { clientName := "Acme", industry := "SaaS", websiteUrl := "", socialProfile := ""
    meetingRecordingType := none, meetingRecordingContent := none
    meetingRecordingFile := none
    auditDeckFile := some { name := "deck.pdf" }
    auditLink := some "https://decks.example.com/a" }

def fEmpty : SubmissionForm :=
  { clientName := "Acme", industry := "SaaS", websiteUrl := "", socialProfile := ""
    meetingRecordingType := none, meetingRecordingContent := none
    meetingRecordingFile := none, auditDeckFile := none, auditLink := none }

def wC3 : World :=
  { http := fun _ => none
    page := fun _ => { ok := false, callId := none, embedded := none, nextData := none }
    api := { apiKey := none, endpointJson := fun _ => none, listJson := none }
    whisper := .error "w"
    pdfText := .error "p"
    completion := fun _ => .error "401 Unauthorized: invalid x-api-key"
    parseJson := fun _ => none }

def wStratOk : World :=
  { wC3 with
    completion := fun _ => .ok [{ type := "text", text := "raw json" }]
    parseJson := fun _ => some (.obj []) }

def wC5a : World :=
  { wC3 with completion := fun _ => .ok [{ type := "image", text := "" }] }

def wC5b : World :=
  { wC3 with
    completion := fun _ => .ok [{ type := "text", text := "Here is your strategy!" }]
    parseJson := fun _ => none }

def wC4 : World :=
  { wC3 with
    http := fun _ => some { ok := false, status := 403, contentType := "", body := "" } }

def fC4 : SubmissionForm :=
  { fEmpty with auditLink := some "https://docs.google.com/document/d/abc/edit" }

def bigT20001 : String := String.mk (List.replicate 20001 'a')

def bigT30001 : String := String.mk (List.replicate 30001 'a')

def dC1 : CollectedData :=
  { clientName := "Acme", industry := "SaaS", websiteUrl := "", socialProfile := ""
    meetingTranscript := some "Hello world", auditDeckContent := none
    websiteContent := none, socialContent := none }

def fC2 : SubmissionForm :=
  { fEmpty with
    meetingRecordingType := some "transcript"
    meetingRecordingContent := some bigT30001 }

def fWeb : SubmissionForm :=
  { fEmpty with websiteUrl := "https://site.example.com" }

def fDeckOnly : SubmissionForm :=
  { fEmpty with auditDeckFile := some { name := "deck.pdf" } }

/-! ## Helper lemmas about the string utilities -/

theorem hasSubAux_append (a b pat : List Char) (h : hasSubAux b pat = true) :
    hasSubAux (a ++ b) pat = true := by
  induction a with
  | nil => simpa using h
  | cons c t ih => simp [hasSubAux, ih]

theorem strHas_append_right (a b pat : String) (h : strHas b pat = true) :
    strHas (a ++ b) pat = true := by
  unfold strHas at h ⊢
  rw [String.data_append]
  exact hasSubAux_append _ _ _ h

theorem hasSubAux_of_isPrefixOf (s pat : List Char) (h : pat.isPrefixOf s = true) :
    hasSubAux s pat = true := by
  cases s with
  | nil =>
    cases pat with
    | nil => rfl
    | cons p ps => simp [List.isPrefixOf] at h
  | cons c t => simp [hasSubAux, h]

theorem hasSubAux_of_infix (s pat : List Char) (h : pat <:+: s) :
    hasSubAux s pat = true := by
  obtain ⟨l, r, rfl⟩ := h
  rw [List.append_assoc]
  apply hasSubAux_append
  apply hasSubAux_of_isPrefixOf
  exact List.isPrefixOf_iff_prefix.mpr ⟨r, rfl⟩

theorem scanCapture_extracts (lit : List Char) :
    ∀ s id, scanCapture lit s = some id → id <:+: s := by
  intro s
  induction s with
  | nil => intro id h; simp [scanCapture] at h
  | cons c t ih =>
    intro id h
    rw [scanCapture] at h
    by_cases hp : lit.isPrefixOf (c :: t) = true
    · rw [if_pos hp] at h
      by_cases he : (((c :: t).drop lit.length).takeWhile isIdChar).isEmpty = true
      · rw [if_pos he] at h
        exact (ih id h).trans (List.suffix_cons c t).isInfix
      · rw [if_neg he] at h
        have hid : id = ((c :: t).drop lit.length).takeWhile isIdChar := by
          exact (Option.some.injEq _ _ ▸ h).symm
        subst hid
        exact ((List.takeWhile_prefix _).isInfix).trans (List.drop_suffix _ _).isInfix
    · rw [if_neg hp] at h
      exact (ih id h).trans (List.suffix_cons c t).isInfix


theorem hasSubAux_false_of_head (p : Char) (ps : List Char) :
    ∀ s, (∀ c ∈ s, c ≠ p) → hasSubAux s (p :: ps) = false := by
  intro s
  induction s with
  | nil => intro _; rfl
  | cons c t ih =>
    intro h
    have hc : (p == c) = false := by
      have := h c (by simp)
      simp [BEq.symm_false]
      exact fun he => this he.symm
    simp [hasSubAux, List.isPrefixOf, hc]
    exact ih (fun x hx => h x (by simp [hx]))

theorem strSlice_length_le (s : String) (n : Nat) : (strSlice s n).length ≤ n := by
  show (s.data.take n).length ≤ n
  simp [List.length_take]

theorem strSlice_length_of_le (s : String) (n : Nat) (h : n ≤ s.length) :
    (strSlice s n).length = n := by
  show (s.data.take n).length = n
  have : n ≤ s.data.length := h
  simp [List.length_take]
  omega

theorem stripHtmlPipeline_length_le (html : String) (cap : Nat) :
    (stripHtmlPipeline html cap).length ≤ cap := by
  unfold stripHtmlPipeline
  exact strSlice_length_le _ _

/-! ## Lemmas about the transcript search -/

theorem findT_zero (v : JsonVal) : findT 0 v = none := rfl

theorem findT_str_short (k : Nat) (s : String) (h : s.length ≤ 500) :
    findT k (.str s) = none := by
  cases k with
  | zero => rfl
  | succ k =>
    have hx : ¬ 500 < s.length := by omega
    simp [findT, hx, isObjLike]

theorem findT_nestUnder : ∀ fuel v, findT fuel (nestUnder fuel v) = none := by
  intro fuel
  induction fuel with
  | zero => intro v; rfl
  | succ k ih =>
    intro v
    show findT (k + 1) (.obj [("wrapped", nestUnder k v)]) = none
    simp [findT, getField, List.lookup, isObjLike, truthyFilter, ih v]
/-! ## Claim C6: the URL Classifier -/

/-- Claim C6: for every URL matching the Google Docs, Google Slides or
Google Drive URL shape, `convertToFetchableUrl` produces the documented
export/download URL built around the resource identifier extracted from the
input (which indeed occurs in the input); a URL matching none of those but
containing `fathom.video` gets the recording-service tag; and a URL
matching none of the recognized patterns is returned unchanged (the Generic
strategy) — the function is total, so classification never throws. -/
theorem c6_url_classifier :
    (∀ url id, scanCapture ("docs.google.com/document/d/").data url.data = some id →
      convertToFetchableUrl url =
        "https://docs.google.com/document/d/" ++ String.mk id ++ "/export?format=txt" ∧
      hasSubAux url.data id = true) ∧
    (∀ url id, scanCapture ("docs.google.com/document/d/").data url.data = none →
      scanCapture ("docs.google.com/presentation/d/").data url.data = some id →
      convertToFetchableUrl url =
        "https://docs.google.com/presentation/d/" ++ String.mk id ++ "/export?format=txt" ∧
      hasSubAux url.data id = true) ∧
    (∀ url id, scanCapture ("docs.google.com/document/d/").data url.data = none →
      scanCapture ("docs.google.com/presentation/d/").data url.data = none →
      scanCapture ("drive.google.com/file/d/").data url.data = some id →
      convertToFetchableUrl url =
        "https://drive.google.com/uc?export=download&id=" ++ String.mk id ∧
      hasSubAux url.data id = true) ∧
    (∀ url, scanCapture ("docs.google.com/document/d/").data url.data = none →
      scanCapture ("docs.google.com/presentation/d/").data url.data = none →
      scanCapture ("drive.google.com/file/d/").data url.data = none →
      strHas url "fathom.video" = true →
      convertToFetchableUrl url = "FATHOM_URL:" ++ url) ∧
    (∀ url, scanCapture ("docs.google.com/document/d/").data url.data = none →
      scanCapture ("docs.google.com/presentation/d/").data url.data = none →
      scanCapture ("drive.google.com/file/d/").data url.data = none →
      strHas url "fathom.video" = false →
      convertToFetchableUrl url = url) := by
  refine ⟨?_, ?_, ?_, ?_, ?_⟩
  · intro url id h
    refine ⟨?_, hasSubAux_of_infix _ _ (scanCapture_extracts _ _ _ h)⟩
    simp [convertToFetchableUrl, h]
  · intro url id h1 h2
    refine ⟨?_, hasSubAux_of_infix _ _ (scanCapture_extracts _ _ _ h2)⟩
    simp [convertToFetchableUrl, h1, h2]
  · intro url id h1 h2 h3
    refine ⟨?_, hasSubAux_of_infix _ _ (scanCapture_extracts _ _ _ h3)⟩
    simp [convertToFetchableUrl, h1, h2, h3]
  · intro url h1 h2 h3 h4
    simp [convertToFetchableUrl, h1, h2, h3, h4]
  · intro url h1 h2 h3 h4
    simp [convertToFetchableUrl, h1, h2, h3, h4]

/-- Witness for C6: the four URL shapes and a generic URL, evaluated at
concrete inputs. -/
theorem c6_url_classifier_witness :
    (convertToFetchableUrl "https://docs.google.com/document/d/abc123/edit" =
      "https://docs.google.com/document/d/" ++ String.mk ("abc123").data ++ "/export?format=txt") ∧
    (convertToFetchableUrl "https://docs.google.com/presentation/d/p_q-7/view" =
      "https://docs.google.com/presentation/d/" ++ String.mk ("p_q-7").data ++ "/export?format=txt") ∧
    (convertToFetchableUrl "https://drive.google.com/file/d/XYZ9/view" =
      "https://drive.google.com/uc?export=download&id=" ++ String.mk ("XYZ9").data) ∧
    (convertToFetchableUrl "https://fathom.video/share/AbC" =
      "FATHOM_URL:" ++ "https://fathom.video/share/AbC") ∧
    (convertToFetchableUrl "https://example.com/page" = "https://example.com/page") :=
  ⟨(c6_url_classifier.1 _ ("abc123").data (by decide)).1,
   (c6_url_classifier.2.1 _ ("p_q-7").data (by decide) (by decide)).1,
   (c6_url_classifier.2.2.1 _ ("XYZ9").data (by decide) (by decide) (by decide)).1,
   c6_url_classifier.2.2.2.1 _ (by decide) (by decide) (by decide) (by decide),
   c6_url_classifier.2.2.2.2 _ (by decide) (by decide) (by decide) (by decide)⟩

/-! ## Claim C8: bounded recursive transcript search -/

/-- Claim C8: the recursive search for embedded transcript data terminates
on every input with a bounded recursion depth: `findT` is structurally
recursive on a fuel of at most 11 levels, independent of the searched
value, so any call with `depth > 10` (the source's guard) returns `null`
immediately, and content nested more than the depth budget below the root —
here, under 11 wrapper objects — is never reached, whatever it is. -/
theorem c8_bounded_search :
    (∀ (v : JsonVal) (d : Nat), 10 < d → findTranscriptInObject v d = none) ∧
    (∀ v : JsonVal, findTranscriptInObject (nestUnder 11 v) 0 = none) := by
  constructor
  · intro v d hd
    unfold findTranscriptInObject
    have h0 : 11 - d = 0 := by omega
    rw [h0]
    rfl
  · intro v
    exact findT_nestUnder 11 v

/-- Witness for C8: the cutoff at depth 11 on a concrete value, and a long
colon-bearing string (which the search would otherwise return) buried just
below the depth budget. -/
theorem c8_bounded_search_witness :
    findTranscriptInObject .null 11 = none ∧
    findTranscriptInObject (nestUnder 11 (.str (String.mk (List.replicate 501 ':')))) 0 = none :=
  ⟨c8_bounded_search.1 .null 11 (by decide),
   c8_bounded_search.2 _⟩

/-! ## Claim C10: the string heuristic of the transcript search -/

/-- Claim C10: in `findTranscriptInObject`, a string longer than 500
characters containing a colon is accepted and returned immediately; this
check runs before the transcript-key and speaker/text-array checks, so the
first such string in traversal order — for example a serialized CSS blob at
the head of an array — is returned even when a genuine transcript
structure follows it; and a string transcript found under a `transcript`
key is returned exactly when it exceeds 100 characters. -/
theorem c10_string_heuristic :
    (∀ (s : String) (d : Nat), d ≤ 10 → 500 < s.length → s.data.contains ':' = true →
      findTranscriptInObject (.str s) d = some s) ∧
    (∀ (s : String) (rest : List JsonVal) (d : Nat), d ≤ 9 → 500 < s.length →
      s.data.contains ':' = true →
      findTranscriptInObject (.arr (.str s :: rest)) d = some s) ∧
    (∀ (s : String) (d : Nat), d ≤ 10 → 100 < s.length →
      findTranscriptInObject (.obj [("transcript", .str s)]) d = some s) ∧
    (∀ (s : String) (d : Nat), s.length ≤ 100 →
      findTranscriptInObject (.obj [("transcript", .str s)]) d = none) := by
  refine ⟨?_, ?_, ?_, ?_⟩
  · intro s d hd hlen hcolon
    unfold findTranscriptInObject
    obtain ⟨k, hk⟩ : ∃ k, 11 - d = k + 1 := ⟨10 - d, by omega⟩
    rw [hk]
    have hmem : ':' ∈ s.data := by simpa using hcolon
    simp [findT, hlen, hmem]
  · intro s rest d hd hlen hcolon
    unfold findTranscriptInObject
    obtain ⟨k, hk⟩ : ∃ k, 11 - d = k + 2 := ⟨9 - d, by omega⟩
    rw [hk]
    have hne : (s == "") = false := by
      have : s.length ≠ 0 := by omega
      cases he : s == ""
      · rfl
      · exact absurd (congrArg String.length (eq_of_beq he)) this
    have hmem : ':' ∈ s.data := by simpa using hcolon
    have hne2 : s ≠ "" := by
      intro he
      rw [he] at hlen
      simp [String.length] at hlen
    simp [findT, isTranscriptShapedArr, isObjLike, truthyFilter, hlen, hmem, hne, hne2,
      List.findSome?_cons]
  · intro s d hd hlen
    unfold findTranscriptInObject
    obtain ⟨k, hk⟩ : ∃ k, 11 - d = k + 1 := ⟨10 - d, by omega⟩
    rw [hk]
    simp [findT, isObjLike, getField, List.lookup, hlen]
  · intro s d hlen
    unfold findTranscriptInObject
    cases hk : 11 - d with
    | zero => rfl
    | succ k =>
      have hshort : ¬ 100 < s.length := by omega
      simp [findT, isObjLike, getField, List.lookup, hshort,
        findT_str_short k s (by omega), truthyFilter]

/-- Witness for C10: concrete strings of lengths 501 (all colons), 101 and
100 exercise each conjunct. -/
theorem c10_string_heuristic_witness :
    findTranscriptInObject (.str (String.mk (List.replicate 501 ':'))) 0 =
      some (String.mk (List.replicate 501 ':')) ∧
    findTranscriptInObject
        (.arr [.str (String.mk (List.replicate 501 ':')),
               .obj [("transcript", .str (String.mk (List.replicate 101 'a')))]]) 0 =
      some (String.mk (List.replicate 501 ':')) ∧
    findTranscriptInObject (.obj [("transcript", .str (String.mk (List.replicate 101 'a')))]) 0 =
      some (String.mk (List.replicate 101 'a')) ∧
    findTranscriptInObject (.obj [("transcript", .str (String.mk (List.replicate 100 'a')))]) 0 =
      none := by
  have h501 : 500 < (String.mk (List.replicate 501 ':')).length := by
    show 500 < (List.replicate 501 ':').length
    rw [List.length_replicate]
    norm_num
  have hc : (String.mk (List.replicate 501 ':')).data.contains ':' = true :=
    List.elem_eq_true_of_mem (List.mem_replicate.mpr ⟨by norm_num, rfl⟩)
  have h101 : 100 < (String.mk (List.replicate 101 'a')).length := by
    show 100 < (List.replicate 101 'a').length
    rw [List.length_replicate]
    norm_num
  have h100 : (String.mk (List.replicate 100 'a')).length ≤ 100 := by
    show (List.replicate 100 'a').length ≤ 100
    rw [List.length_replicate]
  exact ⟨c10_string_heuristic.1 _ 0 (by norm_num) h501 hc,
         c10_string_heuristic.2.1 _ _ 0 (by norm_num) h501 hc,
         c10_string_heuristic.2.2.1 _ 0 (by norm_num) h101,
         c10_string_heuristic.2.2.2 _ 0 h100⟩

/-! ## Claim C7: recoverable Fathom transcript failures -/

/-- Claim C7: whenever no transcript can be recovered for a
recording-service share URL, the retrieval reports a failure whose
user-visible form mentions "transcript" and "paste": the wrapper placeholder
does so for every possible error message, the branch turns every thrown
error into that placeholder, a share URL whose page does not load and which
lacks a recognizable identifier ends in that placeholder, exhausting all
API endpoints and the calls list produces the descriptive error (itself
mentioning "transcript" and "paste"), and the caller receives the Fathom
branch's result as a successful value — never a thrown exception. -/
theorem c7_fathom_failure_recovery :
    (∀ msg, strHas (fathomFailurePlaceholder msg) "transcript" = true ∧
      strHas (fathomFailurePlaceholder msg) "paste" = true) ∧
    (∀ (w : World) (url r : String), fathomFetch w url = .error r →
      fathomBranch w url = fathomFailurePlaceholder r) ∧
    (∀ (w : World) (url : String), (w.page url).ok = false →
      scanFathomId url.data = none →
      fathomBranch w url =
        fathomFailurePlaceholder "Could not extract transcript from Fathom share page") ∧
    (∀ (api : FathomApi) (shareId key : String), api.apiKey = some key →
      (∀ e ∈ fathomEndpoints shareId, api.endpointJson e = none) →
      api.listJson = none →
      fetchFathomTranscript api shareId = .error (fathomExhaustedMsg shareId) ∧
      strHas (fathomExhaustedMsg shareId) "transcript" = true ∧
      strHas (fathomExhaustedMsg shareId) "paste" = true) ∧
    (∀ (w : World) (url : String),
      ("FATHOM_URL:").data.isPrefixOf (convertToFetchableUrl url).data = true →
      fetchLinkContent w url =
        .ok (fathomBranch w (String.mk ((convertToFetchableUrl url).data.drop 11)))) := by
  refine ⟨?_, ?_, ?_, ?_, ?_⟩
  · intro msg
    constructor
    · exact strHas_append_right _ _ _ (by decide)
    · exact strHas_append_right _ _ _ (by decide)
  · intro w url r h
    simp [fathomBranch, h]
  · intro w url hok hscan
    simp [fathomBranch, fathomFetch, hok, hscan]
  · intro api shareId key hkey hends hlist
    refine ⟨?_, ?_, ?_⟩
    · have hnone : (fathomEndpoints shareId).findSome? (fun endpoint =>
        match api.endpointJson endpoint with
        | some data =>
          some (match getField data "transcript" with
                | some t =>
                  if jsTruthy t then formatFathomTranscript t
                  else formatFathomTranscript data
                | none => formatFathomTranscript data)
        | none => none) = none := by
        rw [List.findSome?_eq_none_iff]
        intro e he
        rw [hends e he]
      simp [fetchFathomTranscript, hkey, hlist, hnone]
    · exact strHas_append_right _ _ _ (by decide)
    · exact strHas_append_right _ _ _ (by decide)
  · intro w url h
    simp [fetchLinkContent, h]

/-- Witness for C7, on a share URL with no recognizable identifier and an
API environment in which every endpoint fails. -/
theorem c7_fathom_failure_recovery_witness :
    (strHas (fathomFailurePlaceholder "boom") "transcript" = true ∧
      strHas (fathomFailurePlaceholder "boom") "paste" = true) ∧
    fathomBranch wC7 "https://fathom.video/xyz" =
      fathomFailurePlaceholder "Could not extract transcript from Fathom share page" ∧
    fetchFathomTranscript wC7.api "abc" = .error (fathomExhaustedMsg "abc") ∧
    fetchLinkContent wC7 "https://fathom.video/xyz" =
      .ok (fathomBranch wC7
        (String.mk ((convertToFetchableUrl "https://fathom.video/xyz").data.drop 11))) :=
  ⟨c7_fathom_failure_recovery.1 "boom",
   c7_fathom_failure_recovery.2.2.1 wC7 "https://fathom.video/xyz" (by rfl) (by decide),
   (c7_fathom_failure_recovery.2.2.2.1 wC7.api "abc" "key" (by rfl)
     (by intro e _; rfl) (by rfl)).1,
   c7_fathom_failure_recovery.2.2.2.2 wC7 "https://fathom.video/xyz" (by decide)⟩

/-! ## Claim C9: audit-deck link priority -/

/-- Claim C9: when a submission provides both an audit-deck link and an
uploaded audit-deck binary, `auditDeckContent` is resolved from the link
alone: a successful fetch yields the link content, a failed fetch yields
the link's placeholder string — never any extraction from the uploaded
binary — and the outcome is unchanged if the uploaded binary is removed. -/
theorem c9_audit_link_priority :
    ∀ (w : World) (f : SubmissionForm) (link : String) (deck : UploadFile),
      f.auditLink = some link → (link == "") = false → f.auditDeckFile = some deck →
      (∀ e, fetchLinkContent w link = .error e →
        resolveAuditDeck w f = some ("[Could not fetch content from: " ++ link ++ "]")) ∧
      (∀ c, fetchLinkContent w link = .ok c → resolveAuditDeck w f = some c) ∧
      resolveAuditDeck w f = resolveAuditDeck w { f with auditDeckFile := none } := by
  intro w f link deck hlink hne _hdeck
  refine ⟨?_, ?_, ?_⟩
  · intro e he
    simp [resolveAuditDeck, hlink, jsOptTruthy, hne, he]
  · intro c hc
    simp [resolveAuditDeck, hlink, jsOptTruthy, hne, hc]
  · simp [resolveAuditDeck, hlink, jsOptTruthy, hne]

/-- Witness for C9: both a link and a PDF binary are provided; the link
fetch succeeds and its content (not the PDF text) is used, and dropping the
binary changes nothing. -/
theorem c9_audit_link_priority_witness :
    resolveAuditDeck wC9 fC9 = some (strSlice "deck body" 20000) ∧
    resolveAuditDeck wC9 fC9 = resolveAuditDeck wC9 { fC9 with auditDeckFile := none } :=
  ⟨(c9_audit_link_priority wC9 fC9 "https://decks.example.com/a" { name := "deck.pdf" }
      rfl (by decide) rfl).2.1 (strSlice "deck body" 20000) (by rfl),
   (c9_audit_link_priority wC9 fC9 "https://decks.example.com/a" { name := "deck.pdf" }
      rfl (by decide) rfl).2.2⟩

/-! ## Claim C3: HTTP status codes on failure -/

/-- Claim C3 counterexample: an upstream rejection whose message matches the
known authentication patterns (it mentions 401 and Unauthorized) is still
answered with HTTP 500 and the fixed generic body — not HTTP 401.  The
`POST` handler has a single `catch` with a hard-coded 500. -/
theorem c3_counterexample :
    specIsAuthErrorMsg "401 Unauthorized: invalid x-api-key" = true ∧
    generateStrategy wC3 (buildCollectedData wC3 fEmpty) =
      .error "401 Unauthorized: invalid x-api-key" ∧
    POST wC3 fEmpty =
      { status := 500, strategy := none, error := some "Failed to generate strategy" } ∧
    ¬ (POST wC3 fEmpty).status = 401 :=
  ⟨by decide, rfl, rfl, by decide⟩

/-- Claim C3 (amended): the endpoint answers 200 with the strategy on
success and a uniform HTTP 500 with the fixed body
`{ error: "Failed to generate strategy" }` on every failure — including
authentication-class failures; no 401 discrimination exists in the code. -/
theorem c3_error_status_amended :
    ∀ (w : World) (f : SubmissionForm),
      (∀ s, generateStrategy w (buildCollectedData w f) = .ok s →
        POST w f = { status := 200, strategy := some s, error := none }) ∧
      (∀ e, generateStrategy w (buildCollectedData w f) = .error e →
        POST w f =
          { status := 500, strategy := none, error := some "Failed to generate strategy" }) := by
  intro w f
  constructor
  · intro s hs
    simp [POST, hs]
  · intro e he
    simp [POST, he]

/-- Witness for the amended C3: a successful completion gives 200, and the
authentication-flavoured upstream rejection gives the fixed 500. -/
theorem c3_error_status_amended_witness :
    POST wStratOk fEmpty = { status := 200, strategy := some (.obj []), error := none } ∧
    POST wC3 fEmpty =
      { status := 500, strategy := none, error := some "Failed to generate strategy" } :=
  ⟨(c3_error_status_amended wStratOk fEmpty).1 (.obj []) rfl,
   (c3_error_status_amended wC3 fEmpty).2 "401 Unauthorized: invalid x-api-key" rfl⟩

/-! ## Claim C5: malformed model responses -/

/-- Claim C5: a completion response with no text-typed block makes
`generateStrategy` fail with "No text response from Claude", and the
endpoint propagates this as HTTP 500 with the generic body (not 401);
likewise a text block whose content fails JSON parsing fails with
"Invalid strategy format from AI", also propagated as HTTP 500. -/
theorem c5_no_text_response :
    (∀ (w : World) (f : SubmissionForm) (blocks : List ContentBlock),
      w.completion (buildPrompt (buildCollectedData w f)) = .ok blocks →
      (∀ b ∈ blocks, ¬ b.type = "text") →
      generateStrategy w (buildCollectedData w f) = .error "No text response from Claude" ∧
      POST w f = { status := 500, strategy := none, error := some "Failed to generate strategy" } ∧
      ¬ (POST w f).status = 401) ∧
    (∀ (w : World) (f : SubmissionForm) (blocks : List ContentBlock) (b : ContentBlock),
      w.completion (buildPrompt (buildCollectedData w f)) = .ok blocks →
      blocks.find? (fun bl => bl.type == "text") = some b →
      w.parseJson b.text = none →
      generateStrategy w (buildCollectedData w f) = .error "Invalid strategy format from AI" ∧
      POST w f = { status := 500, strategy := none, error := some "Failed to generate strategy" }) := by
  constructor
  · intro w f blocks hcomp hnotext
    have hfind : blocks.find? (fun bl => bl.type == "text") = none := by
      rw [List.find?_eq_none]
      intro x hx
      simpa using hnotext x hx
    have hgen : generateStrategy w (buildCollectedData w f) =
        .error "No text response from Claude" := by
      simp [generateStrategy, hcomp, hfind]
    exact ⟨hgen, by simp [POST, hgen], by simp [POST, hgen]⟩
  · intro w f blocks b hcomp hfind hparse
    have hgen : generateStrategy w (buildCollectedData w f) =
        .error "Invalid strategy format from AI" := by
      simp [generateStrategy, hcomp, hfind, hparse]
    exact ⟨hgen, by simp [POST, hgen]⟩

/-- Witness for C5: a response whose only block is image-typed, and a
response whose text block is not valid JSON. -/
theorem c5_no_text_response_witness :
    (generateStrategy wC5a (buildCollectedData wC5a fEmpty) =
      .error "No text response from Claude" ∧
     POST wC5a fEmpty =
      { status := 500, strategy := none, error := some "Failed to generate strategy" } ∧
     ¬ (POST wC5a fEmpty).status = 401) ∧
    (generateStrategy wC5b (buildCollectedData wC5b fEmpty) =
      .error "Invalid strategy format from AI" ∧
     POST wC5b fEmpty =
      { status := 500, strategy := none, error := some "Failed to generate strategy" }) :=
  ⟨c5_no_text_response.1 wC5a fEmpty [{ type := "image", text := "" }] rfl (by decide),
   c5_no_text_response.2 wC5b fEmpty [{ type := "text", text := "Here is your strategy!" }]
     { type := "text", text := "Here is your strategy!" } rfl rfl rfl⟩

/-! ## Claim C4: audit link failure placeholder -/

/-- Claim C4 counterexample: with an inaccessible Google Doc audit link
(the fetch answers 403), the live route's record gets the placeholder
`[Could not fetch content from: <link>]`, which does not contain the
substring "Anyone with the link can view"; that sentence only occurs in the
thrown (and discarded) fetch error, and in the alternate handler. -/
theorem c4_counterexample :
    resolveAuditDeck wC4 fC4 =
      some "[Could not fetch content from: https://docs.google.com/document/d/abc/edit]" ∧
    strHas "[Could not fetch content from: https://docs.google.com/document/d/abc/edit]"
      "Anyone with the link can view" = false :=
  ⟨by decide, by decide⟩

/-- Claim C4 (amended): on an inaccessible audit link the live route
records the placeholder `[Could not fetch content from: <link>]`; the
sharing hint "Anyone with the link can view" appears in the error
`fetchLinkContent` throws for Google links (which the `catch` discards),
and in the placeholder of the alternate handler, whose record does contain
that substring. -/
theorem c4_audit_placeholder_amended :
    (∀ (w : World) (f : SubmissionForm) (link e : String),
      f.auditLink = some link → (link == "") = false →
      fetchLinkContent w link = .error e →
      resolveAuditDeck w f = some ("[Could not fetch content from: " ++ link ++ "]")) ∧
    (∀ (w : World) (url : String) (resp : HttpResp),
      ("FATHOM_URL:").data.isPrefixOf (convertToFetchableUrl url).data = false →
      w.http (convertToFetchableUrl url) = some resp → resp.ok = false →
      strHas url "google.com" = true →
      fetchLinkContent w url =
        .error "Google link not accessible. Make sure sharing is set to \"Anyone with the link can view\"" ∧
      strHas "Google link not accessible. Make sure sharing is set to \"Anyone with the link can view\""
        "Anyone with the link can view" = true) ∧
    (∀ (w : World) (f : SubmissionForm) (link e : String),
      f.auditLink = some link → (link == "") = false →
      AltRoute.fetchLinkContent w link = .error e →
      AltRoute.resolveAuditDeck w f = some (AltRoute.auditLinkPlaceholder link) ∧
      strHas (AltRoute.auditLinkPlaceholder link) "Anyone with the link can view" = true) := by
  refine ⟨?_, ?_, ?_⟩
  · intro w f link e hlink hne he
    simp [resolveAuditDeck, hlink, jsOptTruthy, hne, he]
  · intro w url resp hfat hhttp hok hg
    refine ⟨?_, by decide⟩
    simp [fetchLinkContent, hfat, hhttp, hok, hg]
  · intro w f link e hlink hne he
    refine ⟨?_, ?_⟩
    · simp [AltRoute.resolveAuditDeck, hlink, jsOptTruthy, hne, he]
    · exact strHas_append_right _ _ _ (by decide)

/-- Witness for the amended C4, on the concrete inaccessible Google Doc
link: the live placeholder, the discarded Google error, and the alternate
handler's hint-bearing placeholder. -/
theorem c4_audit_placeholder_amended_witness :
    resolveAuditDeck wC4 fC4 =
      some ("[Could not fetch content from: " ++ "https://docs.google.com/document/d/abc/edit" ++ "]") ∧
    (fetchLinkContent wC4 "https://docs.google.com/document/d/abc/edit" =
      .error "Google link not accessible. Make sure sharing is set to \"Anyone with the link can view\"" ∧
     strHas "Google link not accessible. Make sure sharing is set to \"Anyone with the link can view\""
       "Anyone with the link can view" = true) ∧
    (AltRoute.resolveAuditDeck wC4 fC4 =
      some (AltRoute.auditLinkPlaceholder "https://docs.google.com/document/d/abc/edit") ∧
     strHas (AltRoute.auditLinkPlaceholder "https://docs.google.com/document/d/abc/edit")
       "Anyone with the link can view" = true) :=
  ⟨c4_audit_placeholder_amended.1 wC4 fC4 "https://docs.google.com/document/d/abc/edit"
      "Google link not accessible. Make sure sharing is set to \"Anyone with the link can view\""
      rfl (by decide) (by rfl),
   c4_audit_placeholder_amended.2.1 wC4 "https://docs.google.com/document/d/abc/edit"
      { ok := false, status := 403, contentType := "", body := "" }
      (by decide) (by rfl) rfl (by decide),
   c4_audit_placeholder_amended.2.2 wC4 fC4 "https://docs.google.com/document/d/abc/edit"
      "Google link not accessible. Make sure sharing is set to \"Anyone with the link can view\""
      rfl (by decide) (by rfl)⟩

/-! ## Claim C1: the truncation law -/

/-- Claim C1 counterexample: on a transcript of 20001 characters — longer
than the spec's 15000-character transcript cap and even than the largest
fetch-time cap — the Strategy Generator's normalized output for the field
is the input itself: its length is 20001, not cap + marker length, it does
not contain the "...[truncated]" marker anywhere, and it differs from what
the spec-side truncation would produce.  The generator performs no
truncation at all. -/
theorem c1_counterexample :
    renderOr (some bigT20001) "No meeting transcript provided" = bigT20001 ∧
    bigT20001.length = 20001 ∧
    ¬ bigT20001.length = 15000 + ("...[truncated]").length ∧
    strHas bigT20001 "...[truncated]" = false ∧
    ¬ specTruncate 15000 bigT20001 = bigT20001 := by
  have hlen : bigT20001.length = 20001 := by
    show (List.replicate 20001 'a').length = 20001
    rw [List.length_replicate]
  have hne : (bigT20001 == "") = false := rfl
  have hne2 : ¬ bigT20001 = "" := by
    intro he
    rw [he] at hlen
    exact absurd hlen (by decide)
  refine ⟨?_, hlen, ?_, ?_, ?_⟩
  · simp [renderOr, hne, hne2]
  · rw [hlen]
    decide
  · show hasSubAux bigT20001.data (("...[truncated]").data) = false
    have hmark : ("...[truncated]").data = '.' :: ("..[truncated]").data := rfl
    rw [hmark]
    apply hasSubAux_false_of_head
    intro c hc
    have hca : c = 'a' := List.eq_of_mem_replicate hc
    rw [hca]
    decide
  · intro h
    have h15 : 15000 < bigT20001.length := by
      rw [hlen]
      norm_num
    have hL := congrArg String.length h
    rw [specTruncate, if_pos h15, String.length_append,
      strSlice_length_of_le _ _ (by omega), hlen] at hL
    have hm : ("...[truncated]").length = 14 := rfl
    rw [hm] at hL
    omega

/-- Claim C1 (amended): the only truncation in the pipeline happens at
fetch time and is a plain cut with no marker: `slice(0, cap)` keeps exactly
the first `cap` characters of a longer text (a prefix of the input, length
`cap`, nothing appended), and the Strategy Generator then embeds each
non-empty record field in the prompt verbatim — the rendered prompt is
literally `prefix ++ field ++ suffix`. -/
theorem c1_truncation_amended :
    (∀ s : String, 20000 < s.length →
      (strSlice s 20000).length = 20000 ∧ (strSlice s 20000).data <+: s.data) ∧
    (∀ (s : String) (n : Nat), (strSlice s n).length ≤ n) ∧
    (∀ (d : CollectedData) (t : String), d.meetingTranscript = some t → ¬ t = "" →
      buildPrompt d =
        (promptP1 ++ d.clientName ++ promptP2 ++ d.industry ++ promptP3) ++ t ++
        (promptP4 ++ renderOr d.auditDeckContent "No audit deck provided" ++
         promptP5 ++ renderOr d.websiteContent "No website content available" ++
         promptP6 ++ renderOr d.socialContent "No social profile information available" ++
         promptP7)) := by
  refine ⟨?_, ?_, ?_⟩
  · intro s hs
    exact ⟨strSlice_length_of_le s 20000 (by omega), List.take_prefix _ _⟩
  · intro s n
    exact strSlice_length_le s n
  · intro d t ht hne
    simp only [buildPrompt, ht, renderOr]
    simp [String.append_assoc, hne]

/-- Witness for the amended C1: the 20001-character transcript is cut to
exactly 20000 characters by the fetch cap, and a concrete record's prompt
embeds its transcript verbatim between the template segments. -/
theorem c1_truncation_amended_witness :
    ((strSlice bigT20001 20000).length = 20000 ∧
      (strSlice bigT20001 20000).data <+: bigT20001.data) ∧
    (strSlice "ab" 5).length ≤ 5 ∧
    buildPrompt dC1 =
      (promptP1 ++ dC1.clientName ++ promptP2 ++ dC1.industry ++ promptP3) ++ "Hello world" ++
      (promptP4 ++ renderOr dC1.auditDeckContent "No audit deck provided" ++
       promptP5 ++ renderOr dC1.websiteContent "No website content available" ++
       promptP6 ++ renderOr dC1.socialContent "No social profile information available" ++
       promptP7) :=
  ⟨c1_truncation_amended.1 bigT20001
      (by show 20000 < (List.replicate 20001 'a').length; rw [List.length_replicate]; norm_num),
   c1_truncation_amended.2.1 "ab" 5,
   c1_truncation_amended.2.2 dC1 "Hello world" rfl (by decide)⟩

/-! ## Claim C2: length-boundedness of prompt fields -/

/-- Claim C2 counterexample: an inline transcript of 30001 characters
reaches the record — and hence the prompt renderer — verbatim: no
fetch-time cap applies to it and there is no re-cap at 15000 (nor any other
bound) before it is embedded in the prompt. -/
theorem c2_counterexample :
    (buildCollectedData wC7 fC2).meetingTranscript = some bigT30001 ∧
    bigT30001.length = 30001 ∧
    ¬ bigT30001.length ≤ 20000 ∧
    renderOr (buildCollectedData wC7 fC2).meetingTranscript "No meeting transcript provided" =
      bigT30001 := by
  have hlen : bigT30001.length = 30001 := by
    show (List.replicate 30001 'a').length = 30001
    rw [List.length_replicate]
  have hne : (bigT30001 == "") = false := rfl
  have hne2 : ¬ bigT30001 = "" := by
    intro he
    rw [he] at hlen
    exact absurd hlen (by decide)
  have hrec : (buildCollectedData wC7 fC2).meetingTranscript = some bigT30001 := by
    simp [buildCollectedData, resolveMeetingTranscript, fC2, fEmpty, jsOptTruthy, hne]
  refine ⟨hrec, hlen, by omega, ?_⟩
  rw [hrec]
  simp [renderOr, hne, hne2]

/-- Claim C2 (amended): fetched web content is length-bounded before
aggregation — the website field is capped at 10000 characters and non-Fathom
link fetches at 20000 — but there is no per-field re-cap (no 15000/8000)
afterwards, and content that does not come from a capped fetch (an inline
transcript here; likewise Whisper, PDF extraction and Fathom transcripts)
reaches the record and the prompt renderer unbounded. -/
theorem c2_field_bounds_amended :
    (∀ (w : World) (f : SubmissionForm) (s : String),
      resolveWebsiteContent w f = some s → s.length ≤ 10000) ∧
    (∀ (w : World) (url s : String),
      ("FATHOM_URL:").data.isPrefixOf (convertToFetchableUrl url).data = false →
      fetchLinkContent w url = .ok s → s.length ≤ 20000) ∧
    (∀ (w : World) (f : SubmissionForm) (c : String),
      f.meetingRecordingType = some "transcript" → f.meetingRecordingContent = some c →
      (c == "") = false → (buildCollectedData w f).meetingTranscript = some c) ∧
    (∀ (w : World) (f : SubmissionForm) (deck : UploadFile) (t : String),
      jsOptTruthy f.auditLink = false → f.auditDeckFile = some deck →
      strEndsWith deck.name ".pdf" = true → w.pdfText = .ok t →
      (buildCollectedData w f).auditDeckContent = some t) := by
  refine ⟨?_, ?_, ?_, ?_⟩
  · intro w f s h
    rw [resolveWebsiteContent] at h
    split at h
    · exact absurd h (by simp)
    · have hs : s = (match w.http f.websiteUrl with
        | none => "[Error fetching website content]"
        | some resp => stripHtmlPipeline resp.body 10000) := by
        exact (Option.some.injEq _ _ ▸ h).symm
      subst hs
      cases w.http f.websiteUrl with
      | none => decide
      | some resp => exact stripHtmlPipeline_length_le _ _
  · intro w url s hfat h
    rw [fetchLinkContent] at h
    rw [if_neg (by simp [hfat])] at h
    cases hh : w.http (convertToFetchableUrl url) with
    | none => rw [hh] at h; simp at h
    | some resp =>
      rw [hh] at h
      by_cases hok : resp.ok
      · by_cases hct : strHas resp.contentType "text/plain" = true
        · simp [hok, hct] at h
          rw [← h]
          exact strSlice_length_le _ _
        · simp [hok, hct] at h
          rw [← h]
          exact stripHtmlPipeline_length_le _ _
      · by_cases hg : strHas url "google.com" = true
        · simp [hok, hg] at h
        · simp [hok, hg] at h
  · intro w f c htype hcontent hne
    simp [buildCollectedData, resolveMeetingTranscript, htype, hcontent, jsOptTruthy, hne]
  · intro w f deck t hlink hdeck hpdf hok
    simp [buildCollectedData, resolveAuditDeck, hlink, hdeck, hpdf, hok]

/-- Witness for the amended C2: an unreachable website yields the short
placeholder (within the 10000 bound), a plain-text link fetch is capped at
20000, a concrete 30001-character inline transcript passes verbatim, and
PDF-extracted text is used unbounded when no link is given. -/
theorem c2_field_bounds_amended_witness :
    ((("[Error fetching website content]") : String).length ≤ 10000 ∧
      resolveWebsiteContent wC7 fWeb = some "[Error fetching website content]") ∧
    (strSlice "deck body" 20000).length ≤ 20000 ∧
    (buildCollectedData wC7 fC2).meetingTranscript = some bigT30001 ∧
    (buildCollectedData wC9 fDeckOnly).auditDeckContent = some "PDF TEXT FROM BINARY" :=
  ⟨⟨c2_field_bounds_amended.1 wC7 fWeb "[Error fetching website content]" (by rfl), by rfl⟩,
   c2_field_bounds_amended.2.1 wC9 "https://plain.example.com" (strSlice "deck body" 20000)
     (by decide) (by rfl),
   c2_field_bounds_amended.2.2.1 wC7 fC2 bigT30001 rfl rfl rfl,
   c2_field_bounds_amended.2.2.2 wC9 fDeckOnly { name := "deck.pdf" } "PDF TEXT FROM BINARY"
     (by rfl) rfl (by decide) rfl⟩

end Onboard
